import Mathlib

/-!
Shallow embedding of the ESP32-S3 acoustic-capture firmware
(`Acoustic_Feature_Recognition_RIR_with_Calc_Full_Corrected.ino`, given as
`src/unnamed/part_001`, and `src/Acoustic_Feature_Recognition_Capture_Complete.ino`).

Modelling conventions:
* 16-bit samples are `ℤ` values; the C cast `(int16_t)(float expression)` is
  truncation toward zero (`i16trunc`), exact because every cast value in this
  firmware lies inside the int16 range.
* `float`/`double` arithmetic is modelled over `ℝ`; the one place where an IEEE
  special value matters (division by a zero peak, which yields `+∞`) is modelled
  jointly with the caller's clamp, see `envClampedScale`.
* The PSRAM buffer `audio_buffer` is a byte-indexed function `ℕ → ℤ`
  (each entry one byte); an `int16_t` view of it is built with `sampleBytes`.
* The I2S devices are an environment: per-loop-iteration transfer results
  (bytes accepted by `I2Sout.write`, bytes delivered by `I2Sin.readBytes`)
  plus the microphone byte stream.  A polling loop that never reaches its exit
  condition within its response trace is modelled as `none`.
-/

namespace RIRCapture

/-- `#define SAMPLE_RATE 16000`. -/
def SAMPLE_RATE : ℕ := 16000

/-- `#define RIR_RECORD_SECONDS 5`. -/
def RIR_RECORD_SECONDS : ℕ := 5

/-- `#define PASSIVE_CLIP_SECONDS 2`. -/
def PASSIVE_CLIP_SECONDS : ℕ := 2

/-- `#define BYTES_PER_SAMPLE 2`. -/
def BYTES_PER_SAMPLE : ℕ := 2

/-- `#define RIR_BUFFER_SIZE_BYTES (SAMPLE_RATE * BYTES_PER_SAMPLE * RIR_RECORD_SECONDS)`. -/
def RIR_BUFFER_SIZE_BYTES : ℕ := SAMPLE_RATE * BYTES_PER_SAMPLE * RIR_RECORD_SECONDS

/-- `const size_t PASSIVE_BUFFER_SIZE = SAMPLE_RATE*BYTES_PER_SAMPLE*PASSIVE_CLIP_SECONDS`. -/
def PASSIVE_BUFFER_SIZE_BYTES : ℕ := SAMPLE_RATE * BYTES_PER_SAMPLE * PASSIVE_CLIP_SECONDS

/-- `size_t chirp_len = RIR_BUFFER_SIZE_BYTES / 2` (runRIRCapture). -/
def chirp_len : ℕ := RIR_BUFFER_SIZE_BYTES / 2

/-- `size_t test_len = SAMPLE_RATE / 4` (the 0.25 s calibration burst). -/
def test_len : ℕ := SAMPLE_RATE / 4

/-- C cast `(int16_t)x` applied to a floating value already inside the int16
range: truncation toward zero. -/
noncomputable def i16trunc (x : ℝ) : ℤ := if 0 ≤ x then ⌊x⌋ else -⌊-x⌋

/-- The phase law of `generateChirp`:
`float K=(f1-f0)/T; phase = 2.0*PI*(f0*t + 0.5*K*t*t)` with the firmware's
constants substituted by the callers below. -/
noncomputable def chirpPhaseLaw (f0 f1 T t : ℝ) : ℝ :=
  2 * Real.pi * (f0 * t + 0.5 * ((f1 - f0) / T) * t * t)

/-- One sample of `generateChirp` (`part_001` lines 250-257):
`f0=500.0, f1=4000.0, T=(float)RIR_RECORD_SECONDS` (= 5),
`t=(float)i/SAMPLE_RATE`, `buf[i]=(int16_t)(32767.0*sin(phase))`. -/
noncomputable def chirpSample (i : ℕ) : ℤ :=
  i16trunc (32767 * Real.sin (chirpPhaseLaw 500 4000 5 ((i : ℝ) / (SAMPLE_RATE : ℝ))))

/-- `generateChirp(int16_t* buf, size_t len)` as a transformer of the
(sample-indexed) buffer: every position `i < len` is overwritten with
`chirpSample i`; positions past `len` keep their previous contents. -/
noncomputable def generateChirpInto (buf : ℕ → ℤ) (len : ℕ) : ℕ → ℤ :=
  fun i => if i < len then chirpSample i else buf i

/-- The peak scan of `computeEnvironmentScaleFromTestBurst`
(`float peak=0; for(...){ float val=abs(buf[i]); if(val>peak) peak=val; }`).
The running maximum over int16 magnitudes is exact in ℕ (the accompanying RMS
accumulator is only printed, never used, and is not modelled). -/
def computePeak (l : List ℤ) : ℕ := l.foldl (fun p s => max p s.natAbs) 0

/-- The caller-side clamp `if(envScale > 1.0) envScale = 1.0;`
(`runRIRCapture`, line 171). -/
noncomputable def clampScale (s : ℝ) : ℝ := if 1 < s then 1 else s

/-- The composite of `computeEnvironmentScaleFromTestBurst`'s division
`scale = target_peak / peak` (line 263) with the caller's clamp (line 171).
The division is IEEE float division: for `peak = 0` it yields `+∞`
(`target_peak = 31129 > 0`), which is not a value of `ℝ`; the clamp maps that
`+∞` to `1.0`, so the composite is modelled with an explicit zero-peak branch
returning `1`.  For `peak ≠ 0` it is literally clamp-of-quotient. -/
noncomputable def envClampedScale (peak : ℕ) (target : ℝ) : ℝ :=
  if peak = 0 then 1 else clampScale (target / (peak : ℝ))

/-- `LevelCalibrator.calibrate` as the specification words it (spec section 4.2):
computes `scale = target_peak / measured_peak`, clamps to `min(scale, 1.0)`,
and *fails with `SilentCapture` if measured_peak is at or below the device
noise floor* — "in particular, zero" (claim C4); the noise floor of an ideal
device is 0, so failure is the `peak = 0` case.  This definition follows the
spec's words, for comparison against the code's `envClampedScale`. -/
noncomputable def calibrateSpec (peak : ℕ) (target : ℝ) : Option ℝ :=
  if peak = 0 then none else some (min (target / (peak : ℝ)) 1)

/-- Little-endian byte `k` (k = 0 low, k = 1 high) of an int16 value stored in
memory in two's complement, as read back as a byte of `audio_buffer`. -/
def le16byte (s : ℤ) (k : ℕ) : ℤ :=
  if k = 0 then (s % 65536) % 256 else (s % 65536) / 256

/-- The byte view `(uint8_t*)` of a sample-indexed `(int16_t*)` buffer
(little-endian, as on the ESP32-S3). -/
def sampleBytes (a : ℕ → ℤ) : ℕ → ℤ := fun j => le16byte (a (j / 2)) (j % 2)

/-- Little-endian encoding of a `uint16_t` header field written with
`f.write((uint8_t*)&v, 2)`. -/
def le16h (v : ℕ) : List ℤ := [((v % 65536) % 256 : ℕ), ((v % 65536) / 256 : ℕ)]

/-- Little-endian encoding of a `uint32_t` header field written with
`f.write((uint8_t*)&v, 4)`. -/
def le32h (v : ℕ) : List ℤ :=
  [((v % 4294967296) % 256 : ℕ), (((v % 4294967296) / 256) % 256 : ℕ),
   (((v % 4294967296) / 65536) % 256 : ℕ), ((v % 4294967296) / 16777216 : ℕ)]

/-- The 44 header bytes written by `saveWAV` (`part_001` lines 270-292), in
write order: RIFF | chunkSize=36+datasize | WAVE | fmt␣ | fmtSize=16 |
audioFormat=1 | channels=1 | samplerate=SAMPLE_RATE |
byteRate=SAMPLE_RATE*channels*bits/8 | blockAlign=channels*bits/8 | bits=16 |
data | datasize.  Character constants are their ASCII byte values. -/
def wavHeader (data_size : ℕ) : List ℤ :=
  [82, 73, 70, 70] ++ le32h (36 + data_size) ++
  [87, 65, 86, 69] ++
  [102, 109, 116, 32] ++ le32h 16 ++
  le16h 1 ++ le16h 1 ++ le32h SAMPLE_RATE ++
  le32h (SAMPLE_RATE * 1 * 16 / 8) ++ le16h (1 * 16 / 8) ++ le16h 16 ++
  [100, 97, 116, 97] ++ le32h data_size

/-- The complete byte stream produced by `saveWAV(filename, data_size)`:
header followed by `f.write(audio_buffer, datasize)`, i.e. the first
`data_size` bytes of the buffer. -/
def saveWAVBytes (buf : ℕ → ℤ) (data_size : ℕ) : List ℤ :=
  wavHeader data_size ++ (List.range data_size).map buf

/-- Raw little-endian 16-bit PCM encoding of one sample, as the specification
words the WAV data chunk (spec section 6). -/
def pcm16le (s : ℤ) : List ℤ := [(s % 65536) % 256, (s % 65536) / 256]

/-- The WAV byte stream exactly as the specification (section 6) enumerates it:
`RIFF | chunk_size=36+data_size u32 LE | WAVE | fmt␣ | 16 u32 LE | format=1 |
channels=1 | sample_rate | byte_rate=sample_rate·channels·2 |
block_align=channels·2 | bits_per_sample=16 | data | data_size=2n |
raw little-endian 16-bit PCM samples`.  Written from the spec's words, for
comparison against the code's `saveWAVBytes`. -/
def wavSpecStream (samples : List ℤ) (sample_rate : ℕ) : List ℤ :=
  [82, 73, 70, 70] ++ le32h (36 + 2 * samples.length) ++
  [87, 65, 86, 69] ++
  [102, 109, 116, 32] ++ le32h 16 ++
  le16h 1 ++ le16h 1 ++ le32h sample_rate ++
  le32h (sample_rate * 1 * 2) ++ le16h (1 * 2) ++ le16h 16 ++
  [100, 97, 116, 97] ++ le32h (2 * samples.length) ++
  samples.flatMap pcm16le

/-- A sample list viewed as a (sample-indexed) buffer, positions past the end
reading 0. -/
def listBuf (l : List ℤ) : ℕ → ℤ := fun i => l.getD i 0

/-- State of the stage-2 simultaneous playback/record loop
(`runRIRCapture`, lines 193-203): bytes played, bytes recorded, and the
byte-indexed contents of `audio_buffer`. -/
structure DuplexState where
  played : ℕ
  recorded : ℕ
  buf : ℕ → ℤ

/-- One iteration of the duplex loop body.  `r.1`/`r.2` are the device's
results for this iteration's `I2Sout.write` and `I2Sin.readBytes` calls
(each call transfers at most its chunk, `min 1024 remaining`); the bytes the
microphone delivered land at offsets `recorded ..< recorded + rd` of the
buffer, taken from the device stream `mic`. -/
def duplexStep (total : ℕ) (mic : ℕ → ℤ) (r : ℕ × ℕ) (s : DuplexState) : DuplexState :=
  let chunkW := min 1024 (total - s.played)
  let written := min r.1 chunkW
  let chunkR := min 1024 (total - s.recorded)
  let rd := min r.2 chunkR
  ⟨s.played + written, s.recorded + rd,
    fun j => if s.recorded ≤ j ∧ j < s.recorded + rd then mic j else s.buf j⟩

/-- The stage-2 loop `while(bytes_played < RIR_BUFFER_SIZE_BYTES){ ... }`:
note the guard tests only `bytes_played`.  The loop is driven by the finite
device-response trace; `none` means the guard was still true when the trace
ran out (the firmware would still be polling). -/
def duplexLoop (total : ℕ) (mic : ℕ → ℤ) :
    List (ℕ × ℕ) → DuplexState → Option DuplexState
  | [], s => if total ≤ s.played then some s else none
  | r :: rest, s =>
    if total ≤ s.played then some s
    else duplexLoop total mic rest (duplexStep total mic r s)

/-- The two kinds of transfer calls the duplex loop performs. -/
inductive Transfer where
  | play : Transfer
  | capture : Transfer
deriving DecidableEq, Repr

/-- The sequence of transfer calls issued by the duplex loop, in program
order: each iteration calls `I2Sout.write` first and `I2Sin.readBytes`
second (lines 196-202).  Only `bytes_played` influences the guard, so only
the write results of the trace are consulted. -/
def duplexEvents (total : ℕ) : List (ℕ × ℕ) → ℕ → List Transfer
  | [], _ => []
  | r :: rest, played =>
    if total ≤ played then []
    else Transfer.play :: Transfer.capture ::
      duplexEvents total rest (played + min r.1 (min 1024 (total - played)))

/-- The inner recording loop of `runPassiveCapture` (lines 236-240):
`while(bytes_recorded < PASSIVE_BUFFER_SIZE)` with `chunk` the whole
remainder (not capped at 1024). -/
def passiveLoop (total : ℕ) (mic : ℕ → ℤ) :
    List ℕ → ℕ → (ℕ → ℤ) → Option (ℕ × (ℕ → ℤ))
  | [], recd, buf => if total ≤ recd then some (recd, buf) else none
  | r :: rest, recd, buf =>
    if total ≤ recd then some (recd, buf)
    else
      let rd := min r (total - recd)
      passiveLoop total mic rest (recd + rd)
        (fun j => if recd ≤ j ∧ j < recd + rd then mic j else buf j)

/-- The stage-1 playback-only loop (lines 161-166):
`while(bytes_played < test_len*BYTES_PER_SAMPLE)` writing chunks of at most
1024 bytes; the trace holds the device's per-call write results. -/
def playLoop (total : ℕ) : List ℕ → ℕ → Option ℕ
  | [], p => if total ≤ p then some p else none
  | w :: rest, p =>
    if total ≤ p then some p
    else playLoop total rest (p + min w (min 1024 (total - p)))

/-- The device environment of one `runRIRCapture` session: success of the
three `begin` calls (stage-1 TX at line 156, stage-2 TX at line 181, PDM RX
at line 187), the device responses of the stage-1 play loop and of the
stage-2 duplex loop, and the microphone's byte stream. -/
structure RIREnv where
  txInit1 : Bool
  tx1Trace : List ℕ
  txInit2 : Bool
  rxInit : Bool
  duplexTrace : List (ℕ × ℕ)
  mic : ℕ → ℤ

/-- Observable outcome of `runRIRCapture`: the WAV byte streams written to the
SD card (in order), whether a transducer was left initialized at return
(`begin` succeeded with no matching `end`), the environment scale if the
calibration line was reached, the final `bytes_recorded`, and whether the
session returned early on a failed `begin`. -/
structure RunOutcome where
  saved : List (List ℤ)
  txOpen : Bool
  rxOpen : Bool
  scale : Option ℝ
  recordedBytes : ℕ
  aborted : Bool

/-- The environment scale computed at line 169:
`computeEnvironmentScaleFromTestBurst(samples, test_len, 31129.0)` composed
with the clamp at line 171, where the buffer at that point is: the full chirp
written over the initial contents `b0` (line 145), then zeroed up to
`chirp_len` (line 150), then the short test chirp regenerated over it
(line 152).  The scan reads the first `test_len` samples. -/
noncomputable def calibScale (b0 : ℕ → ℤ) : ℝ :=
  envClampedScale
    (computePeak ((List.range test_len).map
      (generateChirpInto
        (fun i => if i < chirp_len then 0 else generateChirpInto b0 chirp_len i)
        test_len)))
    31129

/-- The stage-2 playback buffer (lines 175-177): `memset(samples,0,...)`,
`generateChirp(samples, chirp_len)`, then
`samples[i] = (int16_t)(samples[i] * envScale)` for every `i < chirp_len`. -/
noncomputable def stage2Buf (scale : ℝ) : ℕ → ℤ := fun i =>
  if i < chirp_len then i16trunc ((generateChirpInto (fun _ => 0) chirp_len i : ℤ) * scale)
  else generateChirpInto (fun _ => 0) chirp_len i

/-- `runRIRCapture()` (`part_001` lines 137-220) as a function of the device
environment and the initial buffer contents `b0`.  Early `return`s on failed
`begin` calls produce an aborted outcome with nothing saved; on the stage-2
RX failure path the already-started TX is ended first (line 189).  On the
success path the loop's final buffer is saved with
`saveWAV(filename, RIR_BUFFER_SIZE_BYTES)`. -/
noncomputable def runRIRCapture (env : RIREnv) (b0 : ℕ → ℤ) : Option RunOutcome :=
  if env.txInit1 = false then some ⟨[], false, false, none, 0, true⟩
  else
    match playLoop (test_len * BYTES_PER_SAMPLE) env.tx1Trace 0 with
    | none => none
    | some _ =>
      if env.txInit2 = false then some ⟨[], false, false, some (calibScale b0), 0, true⟩
      else if env.rxInit = false then some ⟨[], false, false, some (calibScale b0), 0, true⟩
      else
        match duplexLoop RIR_BUFFER_SIZE_BYTES env.mic env.duplexTrace
            ⟨0, 0, sampleBytes (stage2Buf (calibScale b0))⟩ with
        | none => none
        | some sF =>
          some ⟨[saveWAVBytes sF.buf RIR_BUFFER_SIZE_BYTES], false, false,
                some (calibScale b0), sF.recorded, false⟩

/-- `applyGain()` of `Acoustic_Feature_Recognition_Capture_Complete.ino`
(lines 291-301) on one sample: `int32_t s = (int32_t)samples[i] * 2.0;`
(exact, gain 2.0 is a power of two) then the two saturation tests in source
order. -/
def applyGainSample (x : ℤ) : ℤ :=
  let s := 2 * x
  let s1 := if 32767 < s then 32767 else s
  if s1 < -32768 then -32768 else s1

/-- The generated test chirp, i.e. the first `test_len` samples the
calibration scan reads. -/
noncomputable def testChirpList : List ℤ := (List.range test_len).map chirpSample

/-- Peak magnitude of the generated test chirp. -/
noncomputable def testPeak : ℕ := computePeak testChirpList

/-- The environment scale every session computes (claim C5's constant). -/
noncomputable def envScaleConst : ℝ := envClampedScale testPeak 31129

/-- A concrete all-zero buffer / microphone stream. -/
def bZero : ℕ → ℤ := fun _ => 0

/-- Concrete environment for the silent-capture run: all `begin`s succeed,
the stage-1 play loop is given 8 write grants of 1024 bytes (8192 ≥ 8000),
and in the duplex loop the TX accepts every chunk while the RX delivers 0
bytes on each of the 157 iterations needed to play all 160000 bytes. -/
def envCE : RIREnv :=
  ⟨true, List.replicate 8 1024, true, true, List.replicate 157 (1024, 0), bZero⟩

/-- Concrete environment whose stage-2 TX `begin` fails (stage-1 TX succeeds
and its play loop is granted 8 × 1024 bytes). -/
def envW : RIREnv := ⟨true, List.replicate 8 1024, false, true, [], bZero⟩

/-! ### Helper lemmas -/

lemma clampScale_eq_min (s : ℝ) : clampScale s = min s 1 := by
  unfold clampScale
  rcases le_or_lt s 1 with h | h
  · rw [if_neg (not_lt.mpr h), min_eq_left h]
  · rw [if_pos h, min_eq_right h.le]

lemma envClampedScale_le_one (p : ℕ) (t : ℝ) : envClampedScale p t ≤ 1 := by
  unfold envClampedScale
  split
  · exact le_refl 1
  · rw [clampScale_eq_min]; exact min_le_right _ _

lemma envClampedScale_nonneg (p : ℕ) (t : ℝ) (ht : 0 ≤ t) : 0 ≤ envClampedScale p t := by
  unfold envClampedScale
  split
  · norm_num
  · rw [clampScale_eq_min]
    exact le_min (div_nonneg ht (Nat.cast_nonneg p)) one_pos.le

lemma i16trunc_natAbs_le (x : ℝ) (B : ℕ) (h : |x| ≤ (B : ℝ)) : (i16trunc x).natAbs ≤ B := by
  unfold i16trunc
  split_ifs with h0
  · have h1 : (0:ℤ) ≤ ⌊x⌋ := Int.floor_nonneg.mpr h0
    have h2 : ⌊x⌋ ≤ (B : ℤ) := by
      have hx : x ≤ (B : ℝ) := le_trans (le_abs_self x) h
      have := Int.floor_le_floor hx
      simpa using this
    omega
  · push_neg at h0
    have hx : 0 ≤ -x := by linarith
    have h1 : (0:ℤ) ≤ ⌊-x⌋ := Int.floor_nonneg.mpr hx
    have h2 : ⌊-x⌋ ≤ (B : ℤ) := by
      have hax : -x ≤ (B:ℝ) := by rw [abs_of_neg h0] at h; exact h
      have := Int.floor_le_floor hax
      simpa using this
    omega

lemma i16trunc_mul_natAbs_le (x : ℤ) (s : ℝ) (h0 : 0 ≤ s) (h1 : s ≤ 1) :
    (i16trunc ((x : ℝ) * s)).natAbs ≤ x.natAbs := by
  apply i16trunc_natAbs_le
  rw [abs_mul, abs_of_nonneg h0]
  have hx : |(x:ℝ)| = (x.natAbs : ℝ) := by
    rw [← Int.cast_abs, Int.abs_eq_natAbs, Int.cast_natCast]
  rw [hx]
  calc (x.natAbs : ℝ) * s ≤ (x.natAbs : ℝ) * 1 :=
        mul_le_mul_of_nonneg_left h1 (Nat.cast_nonneg _)
    _ = (x.natAbs : ℝ) := mul_one _

lemma foldl_max_init_le (l : List ℤ) :
    ∀ init : ℕ, init ≤ l.foldl (fun p v => max p v.natAbs) init := by
  induction l with
  | nil => intro init; simp
  | cons a t ih =>
    intro init
    simp only [List.foldl_cons]
    exact le_trans (le_max_left _ _) (ih _)

lemma le_foldl_max_of_mem {l : List ℤ} {s : ℤ} (h : s ∈ l) :
    ∀ init : ℕ, s.natAbs ≤ l.foldl (fun p v => max p v.natAbs) init := by
  induction l with
  | nil => cases h
  | cons a t ih =>
    intro init
    simp only [List.foldl_cons]
    rcases List.mem_cons.mp h with rfl | hm
    · exact le_trans (le_max_right _ _) (foldl_max_init_le t _)
    · exact ih hm _

lemma le_computePeak {l : List ℤ} {s : ℤ} (h : s ∈ l) : s.natAbs ≤ computePeak l :=
  le_foldl_max_of_mem h 0

lemma computePeak_le {l : List ℤ} {B : ℕ} (h : ∀ s ∈ l, s.natAbs ≤ B) :
    computePeak l ≤ B := by
  unfold computePeak
  suffices H : ∀ init, init ≤ B → l.foldl (fun p v => max p v.natAbs) init ≤ B from
    H 0 (Nat.zero_le B)
  induction l with
  | nil => intro init hi; simpa using hi
  | cons a t ih =>
    intro init hi
    simp only [List.foldl_cons]
    exact ih (fun s hs => h s (List.mem_cons_of_mem a hs)) _
      (max_le hi (h a (List.mem_cons_self a t)))

lemma sin_phase_800 :
    Real.sin (chirpPhaseLaw 500 4000 5 ((800 : ℕ) / (SAMPLE_RATE : ℝ))) =
      -(Real.sqrt 2 / 2) := by
  have h : chirpPhaseLaw 500 4000 5 (((800 : ℕ) : ℝ) / (SAMPLE_RATE : ℝ)) =
      -(Real.pi / 4) + (26 : ℤ) * (2 * Real.pi) := by
    unfold chirpPhaseLaw
    have hsr : ((SAMPLE_RATE : ℕ) : ℝ) = 16000 := by norm_num [SAMPLE_RATE]
    rw [hsr]
    push_cast
    ring_nf
  rw [h, Real.sin_add_int_mul_two_pi, Real.sin_neg, Real.sin_pi_div_four]

lemma sqrt2_lb : (1.41421 : ℝ) < Real.sqrt 2 := by
  rw [Real.lt_sqrt (by norm_num)]
  norm_num

lemma sqrt2_ub : Real.sqrt 2 < 1.41422 := by
  rw [Real.sqrt_lt' (by norm_num)]
  norm_num

lemma chirpSample_800 : chirpSample 800 = -23169 := by
  unfold chirpSample
  rw [sin_phase_800]
  unfold i16trunc
  have hneg : ¬ (0 ≤ (32767 : ℝ) * -(Real.sqrt 2 / 2)) := by
    push_neg
    nlinarith [sqrt2_lb]
  rw [if_neg hneg]
  have h1 : ⌊-((32767 : ℝ) * -(Real.sqrt 2 / 2))⌋ = 23169 := by
    rw [show -((32767 : ℝ) * -(Real.sqrt 2 / 2)) = 32767 * (Real.sqrt 2 / 2) by ring]
    rw [Int.floor_eq_iff]
    constructor
    · push_cast
      nlinarith [sqrt2_lb]
    · push_cast
      nlinarith [sqrt2_ub]
  rw [h1]

lemma chirpSample_natAbs_le (i : ℕ) : (chirpSample i).natAbs ≤ 32767 := by
  unfold chirpSample
  apply i16trunc_natAbs_le
  rw [abs_mul, abs_of_nonneg (by norm_num : (0:ℝ) ≤ 32767)]
  have h := Real.abs_sin_le_one (chirpPhaseLaw 500 4000 5 ((i : ℕ) / (SAMPLE_RATE : ℝ)))
  nlinarith [h]

lemma testPeak_lb : 23169 ≤ testPeak := by
  have hm : chirpSample 800 ∈ testChirpList := by
    unfold testChirpList
    exact List.mem_map.mpr ⟨800, List.mem_range.mpr (by norm_num [test_len, SAMPLE_RATE]), rfl⟩
  have h := le_computePeak hm
  rw [chirpSample_800] at h
  simpa using h

lemma testPeak_ub : testPeak ≤ 32767 := by
  apply computePeak_le
  intro s hs
  obtain ⟨i, _, rfl⟩ := List.mem_map.mp hs
  exact chirpSample_natAbs_le i

lemma testPeak_ne : testPeak ≠ 0 := by
  have := testPeak_lb
  omega

lemma envScaleConst_eq : envScaleConst = min ((31129 : ℝ) / (testPeak : ℝ)) 1 := by
  unfold envScaleConst envClampedScale
  rw [if_neg testPeak_ne, clampScale_eq_min]

lemma envScaleConst_lb : (31129 : ℝ) / 32767 ≤ envScaleConst := by
  rw [envScaleConst_eq]
  apply le_min
  · have h1 : (0:ℝ) < (testPeak : ℝ) := by
      have := testPeak_lb
      positivity
    have h2 : (testPeak : ℝ) ≤ 32767 := by
      have := testPeak_ub
      exact_mod_cast this
    gcongr
  · norm_num

lemma envScaleConst_le_one : envScaleConst ≤ 1 := envClampedScale_le_one _ _

lemma calibScale_eq (b0 : ℕ → ℤ) : calibScale b0 = envScaleConst := by
  have harg : (List.range test_len).map
      (generateChirpInto
        (fun i => if i < chirp_len then 0 else generateChirpInto b0 chirp_len i)
        test_len) = (List.range test_len).map chirpSample := by
    apply List.map_congr_left
    intro i hi
    have h : i < test_len := List.mem_range.mp hi
    simp [generateChirpInto, h]
  unfold calibScale envScaleConst testPeak testChirpList
  rw [harg]

lemma stage2Buf_800_bounds :
    -23169 ≤ stage2Buf envScaleConst 800 ∧ stage2Buf envScaleConst 800 ≤ -22010 := by
  have h800 : (800 : ℕ) < chirp_len := by
    norm_num [chirp_len, RIR_BUFFER_SIZE_BYTES, SAMPLE_RATE, BYTES_PER_SAMPLE,
      RIR_RECORD_SECONDS]
  unfold stage2Buf
  rw [if_pos h800]
  have hc : generateChirpInto (fun _ => 0) chirp_len 800 = chirpSample 800 := by
    simp [generateChirpInto, h800]
  rw [hc, chirpSample_800]
  have hs1 : (31129 : ℝ) / 32767 ≤ envScaleConst := envScaleConst_lb
  have hs2 : envScaleConst ≤ 1 := envScaleConst_le_one
  have hx : (((-23169 : ℤ)) : ℝ) * envScaleConst = -(23169 * envScaleConst) := by
    push_cast
    ring
  unfold i16trunc
  rw [hx]
  have hneg : ¬ (0 ≤ -(23169 * envScaleConst)) := by
    push_neg
    nlinarith
  rw [if_neg hneg, neg_neg]
  have hfl_lb : (22010 : ℤ) ≤ ⌊(23169 : ℝ) * envScaleConst⌋ := by
    apply Int.le_floor.mpr
    push_cast
    nlinarith
  have hfl_ub : ⌊(23169 : ℝ) * envScaleConst⌋ < 23170 := by
    apply Int.floor_lt.mpr
    push_cast
    nlinarith
  omega

lemma duplexLoop_exit (total : ℕ) (mic : ℕ → ℤ) (tr : List (ℕ × ℕ)) (s : DuplexState)
    (h : total ≤ s.played) : duplexLoop total mic tr s = some s := by
  cases tr with
  | nil => unfold duplexLoop; rw [if_pos h]
  | cons r rest => unfold duplexLoop; rw [if_pos h]

lemma duplexStep_zero_read (total : ℕ) (mic : ℕ → ℤ) (s : DuplexState) :
    duplexStep total mic (1024, 0) s =
      ⟨s.played + min 1024 (total - s.played), s.recorded, s.buf⟩ := by
  simp only [duplexStep, DuplexState.mk.injEq]
  refine ⟨by omega, by omega, ?_⟩
  funext j
  rw [if_neg (by omega)]

lemma duplexLoop_zero_reads (total : ℕ) (mic : ℕ → ℤ) :
    ∀ (k : ℕ) (s : DuplexState), s.played < total → total ≤ s.played + 1024 * k →
      duplexLoop total mic (List.replicate k (1024, 0)) s =
        some ⟨total, s.recorded, s.buf⟩ := by
  intro k
  induction k with
  | zero => intro s h1 h2; omega
  | succ n ih =>
    intro s h1 h2
    rw [List.replicate_succ]
    unfold duplexLoop
    rw [if_neg (by omega), duplexStep_zero_read]
    by_cases hdone : total ≤ s.played + min 1024 (total - s.played)
    · have heq : s.played + min 1024 (total - s.played) = total := by omega
      rw [heq]
      exact duplexLoop_exit total mic _ _ (le_refl total)
    · have h3 : s.played + min 1024 (total - s.played) < total := by omega
      have h4 : total ≤ s.played + min 1024 (total - s.played) + 1024 * n := by omega
      exact ih ⟨s.played + min 1024 (total - s.played), s.recorded, s.buf⟩ h3 h4

lemma passiveLoop_complete (total : ℕ) (mic : ℕ → ℤ) :
    ∀ (tr : List ℕ) (r0 : ℕ) (b0 : ℕ → ℤ) (recd : ℕ) (buf : ℕ → ℤ),
      r0 ≤ total → passiveLoop total mic tr r0 b0 = some (recd, buf) → recd = total := by
  intro tr
  induction tr with
  | nil =>
    intro r0 b0 recd buf hr h
    unfold passiveLoop at h
    split_ifs at h with hc
    simp only [Option.some.injEq, Prod.mk.injEq] at h
    omega
  | cons w rest ih =>
    intro r0 b0 recd buf hr h
    unfold passiveLoop at h
    split_ifs at h with hc
    · simp only [Option.some.injEq, Prod.mk.injEq] at h
      omega
    · exact ih _ _ recd buf (by omega) h

lemma wavHeader_length (ds : ℕ) : (wavHeader ds).length = 44 := by
  simp [wavHeader, le32h, le16h]

lemma saveWAVBytes_length (buf : ℕ → ℤ) (ds : ℕ) :
    (saveWAVBytes buf ds).length = 44 + ds := by
  simp [saveWAVBytes, wavHeader_length]

lemma saveWAVBytes_data_getD (buf : ℕ → ℤ) (ds k : ℕ) (hk : k < ds) :
    (saveWAVBytes buf ds).getD (44 + k) 0 = buf k := by
  unfold saveWAVBytes
  rw [List.getD_eq_getElem?_getD,
    List.getElem?_append_right (by rw [wavHeader_length]; omega)]
  rw [wavHeader_length]
  simp [List.getElem?_map, List.getElem?_range, hk]

lemma pcm16le_eq (s : ℤ) : pcm16le s = [le16byte s 0, le16byte s 1] := by
  simp [pcm16le, le16byte]

lemma rangeMap_pcm (l : List ℤ) :
    (List.range (2 * l.length)).map (sampleBytes (listBuf l)) = l.flatMap pcm16le := by
  induction l with
  | nil => simp
  | cons a t ih =>
    have h2 : 2 * (a :: t).length = 2 + 2 * t.length := by
      simp [List.length_cons]
      ring
    rw [h2, List.range_add, List.map_append, List.map_map]
    have hhead : (List.range 2).map (sampleBytes (listBuf (a :: t))) =
        [le16byte a 0, le16byte a 1] := by
      simp [List.range_succ, sampleBytes, listBuf, le16byte]
    have htail : (List.range (2 * t.length)).map
        (sampleBytes (listBuf (a :: t)) ∘ (2 + ·)) =
        (List.range (2 * t.length)).map (sampleBytes (listBuf t)) := by
      apply List.map_congr_left
      intro j _
      simp only [Function.comp_apply, sampleBytes, listBuf]
      have hdiv : (2 + j) / 2 = j / 2 + 1 := by omega
      have hmod : (2 + j) % 2 = j % 2 := by omega
      rw [hdiv, hmod, List.getD_cons_succ]
    rw [hhead, htail, ih, List.flatMap_cons, pcm16le_eq]

/-! ### Claim theorems -/

/-- C10: `generateChirp` is deterministic and side-effect-free: for any two
runs with identical inputs (the buffer length; the frequency/duration/rate
parameters are fixed constants), the generated sample sequences are
bit-identical — position `i < len` of the output depends only on `i`, not on
the prior buffer contents or any other state. -/
theorem c10_chirp_deterministic (b1 b2 : ℕ → ℤ) (len i : ℕ) (h : i < len) :
    generateChirpInto b1 len i = generateChirpInto b2 len i := by
  simp [generateChirpInto, h]

/-- Witness for C10 at `len = 5`, `i = 2`, two different initial buffers. -/
theorem c10_witness :
    (2 : ℕ) < 5 ∧ generateChirpInto (fun _ => 7) 5 2 = generateChirpInto bZero 5 2 :=
  ⟨by norm_num, c10_chirp_deterministic (fun _ => 7) bZero 5 2 (by norm_num)⟩

/-- C4 counterexample: at measured peak 0 (at or below any noise floor) the
spec's `calibrate` fails with `SilentCapture` (`calibrateSpec 0 _ = none`),
but the code performs the division (IEEE `+∞`) and the caller's clamp turns
it into the scale `1.0`; no error is raised and the session continues with
that scale — the claimed failure does not happen. -/
theorem c4_counterexample :
    calibrateSpec 0 31129 = none ∧ envClampedScale 0 31129 = 1 := by
  constructor
  · simp [calibrateSpec]
  · simp [envClampedScale]

/-- C4 amended: when the calibration burst's measured peak is zero, the code
performs the (float) division — `+∞` — and the caller's clamp maps it to the
safe default scale `1.0`, with which the session continues; no `SilentCapture`
error is raised or logged. -/
theorem c4_zero_peak_continues (t : ℝ) : envClampedScale 0 t = 1 := by
  simp [envClampedScale]

/-- C3: for a calibration buffer with measured peak `p > 0` and target `t ≥ 0`,
the calibration step (division at line 263 composed with the caller's clamp at
line 171) returns `min (t / p) 1`; in particular the applied scale never
exceeds 1, so scaling a sample by it never increases its magnitude. -/
theorem c3_scale_clamp (buf : List ℤ) (target : ℝ) (x : ℤ)
    (hp : computePeak buf ≠ 0) (ht : 0 ≤ target) :
    envClampedScale (computePeak buf) target = min (target / (computePeak buf : ℝ)) 1 ∧
    envClampedScale (computePeak buf) target ≤ 1 ∧
    (i16trunc ((x : ℝ) * envClampedScale (computePeak buf) target)).natAbs ≤ x.natAbs := by
  refine ⟨?_, envClampedScale_le_one _ _, ?_⟩
  · unfold envClampedScale
    rw [if_neg hp, clampScale_eq_min]
  · exact i16trunc_mul_natAbs_le x _ (envClampedScale_nonneg _ _ ht)
      (envClampedScale_le_one _ _)

/-- Witness for C3 at the buffer `[5]` (peak 5), target 31129, sample 7. -/
theorem c3_witness :
    computePeak [(5:ℤ)] ≠ 0 ∧ (0:ℝ) ≤ 31129 ∧
    (envClampedScale (computePeak [(5:ℤ)]) 31129 =
        min ((31129 : ℝ) / (computePeak [(5:ℤ)] : ℝ)) 1 ∧
      envClampedScale (computePeak [(5:ℤ)]) 31129 ≤ 1 ∧
      (i16trunc (((7:ℤ) : ℝ) * envClampedScale (computePeak [(5:ℤ)]) 31129)).natAbs ≤
        (7:ℤ).natAbs) :=
  ⟨by decide, by norm_num, c3_scale_clamp [5] 31129 7 (by decide) (by norm_num)⟩

/-- C8: every waveform-producing operation keeps samples inside
[-32768, 32767]: the generated chirp has magnitude ≤ 32767; `applyGain`
(multiply by 2.0 then saturate) stays inside the bounds for every input and
saturates instead of wrapping (e.g. 20000 ↦ 32767, not −25536); scaling by
the clamped environment scale never increases a sample's magnitude. -/
theorem c8_sample_bounds :
    (∀ i : ℕ, (chirpSample i).natAbs ≤ 32767) ∧
    (∀ x : ℤ, -32768 ≤ applyGainSample x ∧ applyGainSample x ≤ 32767) ∧
    applyGainSample 20000 = 32767 ∧
    (∀ x : ℤ, x.natAbs ≤ 32767 →
      (i16trunc ((x : ℝ) * envScaleConst)).natAbs ≤ 32767) := by
  refine ⟨chirpSample_natAbs_le, ?_, by decide, ?_⟩
  · intro x
    simp only [applyGainSample]
    constructor <;> split_ifs <;> omega
  · intro x hx
    calc (i16trunc ((x : ℝ) * envScaleConst)).natAbs ≤ x.natAbs :=
          i16trunc_mul_natAbs_le x _
            (le_trans (by norm_num) envScaleConst_lb) envScaleConst_le_one
      _ ≤ 32767 := hx

/-- Witness for C8 at chirp index 3, gain input 20000, scaled sample 5. -/
theorem c8_witness :
    (chirpSample 3).natAbs ≤ 32767 ∧ applyGainSample 20000 = 32767 ∧
    (5:ℤ).natAbs ≤ 32767 ∧ (i16trunc (((5:ℤ) : ℝ) * envScaleConst)).natAbs ≤ 32767 :=
  ⟨c8_sample_bounds.1 3, c8_sample_bounds.2.2.1, by decide,
    c8_sample_bounds.2.2.2 5 (by decide)⟩

/-- C7: the byte stream produced by `saveWAV` for a waveform of `n` 16-bit
samples is exactly the stream the specification enumerates: RIFF header with
`chunk_size = 36 + 2n`, canonical mono 16-bit PCM `fmt ` chunk at the
firmware's sample rate with `byte_rate = sample_rate·channels·2` and
`block_align = channels·2`, and a `data` chunk of the `2n` little-endian PCM
bytes in order. -/
theorem c7_wav_format (samples : List ℤ) :
    saveWAVBytes (sampleBytes (listBuf samples)) (BYTES_PER_SAMPLE * samples.length) =
      wavSpecStream samples SAMPLE_RATE := by
  unfold saveWAVBytes wavSpecStream wavHeader
  have hbs : BYTES_PER_SAMPLE * samples.length = 2 * samples.length := by
    norm_num [BYTES_PER_SAMPLE]
  rw [hbs, rangeMap_pcm]
  norm_num [SAMPLE_RATE]

/-- C2 counterexample: in the duplex loop the very first transfer is the
playback write — with any nonempty device trace (here one iteration of full
grants) the event sequence starts `play, capture`, so the first capture
transfer IS later than the first playback transfer, contradicting the claim
(there is also no start-signal object anywhere in the loop). -/
theorem c2_counterexample :
    ¬ ((duplexEvents RIR_BUFFER_SIZE_BYTES [(1024, 1024)] 0).indexOf Transfer.capture ≤
        (duplexEvents RIR_BUFFER_SIZE_BYTES [(1024, 1024)] 0).indexOf Transfer.play) := by
  decide

/-- C2 amended: the duplex loop is a single-threaded interleaved poll loop
with no start signal; in every iteration the playback write is issued first
and the capture read second, so the first playback transfer precedes the
first capture transfer. -/
theorem c2_play_precedes_capture (total : ℕ) (r : ℕ × ℕ) (tr : List (ℕ × ℕ)) (p : ℕ)
    (h : p < total) :
    duplexEvents total (r :: tr) p =
      Transfer.play :: Transfer.capture ::
        duplexEvents total tr (p + min r.1 (min 1024 (total - p))) := by
  unfold duplexEvents
  rw [if_neg (by omega)]
  congr 2
  cases tr <;> rfl

/-- Witness for the amended C2 at the session's buffer size, trace of one
full-grant iteration. -/
theorem c2_witness :
    0 < RIR_BUFFER_SIZE_BYTES ∧
    duplexEvents RIR_BUFFER_SIZE_BYTES [(1024, 1024)] 0 =
      Transfer.play :: Transfer.capture ::
        duplexEvents RIR_BUFFER_SIZE_BYTES []
          (0 + min 1024 (min 1024 (RIR_BUFFER_SIZE_BYTES - 0))) :=
  ⟨by decide, c2_play_precedes_capture RIR_BUFFER_SIZE_BYTES (1024, 1024) [] 0 (by decide)⟩

/-- C9: for every valid parameter set (`start_freq < end_freq`, positive
duration; the time variable ranging over the sweep), the chirp's phase law is
the time-integral of the instantaneous linear frequency law
`f(t) = f0 + K·t` with `K = (f1 - f0)/T` (equivalently, its derivative at
every point is `2π·f(t)`), the instantaneous frequency stays between
`start_freq` and `end_freq`, and the phase is a continuous function of time
(no discontinuity). -/
theorem c9_chirp_phase (f0 f1 T t : ℝ) (hT : 0 < T) (hf : f0 < f1)
    (ht0 : 0 ≤ t) (htT : t ≤ T) :
    HasDerivAt (chirpPhaseLaw f0 f1 T) (2 * Real.pi * (f0 + ((f1 - f0) / T) * t)) t ∧
    (∫ s in (0:ℝ)..t, 2 * Real.pi * (f0 + ((f1 - f0) / T) * s)) = chirpPhaseLaw f0 f1 T t ∧
    f0 ≤ f0 + ((f1 - f0) / T) * t ∧ f0 + ((f1 - f0) / T) * t ≤ f1 ∧
    Continuous (chirpPhaseLaw f0 f1 T) := by
  have hK : 0 < (f1 - f0) / T := div_pos (by linarith) hT
  refine ⟨?_, ?_, ?_, ?_, ?_⟩
  · show HasDerivAt (fun u : ℝ => 2 * Real.pi * (f0 * u + 0.5 * ((f1 - f0) / T) * u * u))
      (2 * Real.pi * (f0 + ((f1 - f0) / T) * t)) t
    have hid : HasDerivAt (fun u : ℝ => u) 1 t := hasDerivAt_id t
    have ha : HasDerivAt (fun u : ℝ => f0 * u) (f0 * 1) t := hid.const_mul f0
    have hb0 : HasDerivAt (fun u : ℝ => 0.5 * ((f1 - f0) / T) * u)
        (0.5 * ((f1 - f0) / T) * 1) t := hid.const_mul _
    have hb := hb0.mul hid
    have hfull := (ha.add hb).const_mul (2 * Real.pi)
    convert hfull using 1
    ring
  · rw [intervalIntegral.integral_const_mul]
    have h1 : IntervalIntegrable (fun _ : ℝ => f0) MeasureTheory.volume 0 t :=
      intervalIntegrable_const
    have h2 : IntervalIntegrable (fun s : ℝ => ((f1 - f0) / T) * s) MeasureTheory.volume 0 t :=
      (continuous_const.mul continuous_id).intervalIntegrable 0 t
    rw [intervalIntegral.integral_add h1 h2, intervalIntegral.integral_const,
      intervalIntegral.integral_const_mul, integral_id]
    unfold chirpPhaseLaw
    simp only [smul_eq_mul]
    ring
  · nlinarith [mul_nonneg hK.le ht0]
  · have hKT : ((f1 - f0) / T) * t ≤ ((f1 - f0) / T) * T :=
      mul_le_mul_of_nonneg_left htT hK.le
    have hTT : ((f1 - f0) / T) * T = f1 - f0 := div_mul_cancel₀ _ (ne_of_gt hT)
    linarith
  · show Continuous (fun u : ℝ => 2 * Real.pi * (f0 * u + 0.5 * ((f1 - f0) / T) * u * u))
    fun_prop

/-- Witness for C9 at the firmware's parameters `f0 = 500`, `f1 = 4000`,
`T = 5` and time `t = 1` (sample index 16000). -/
theorem c9_witness :
    HasDerivAt (chirpPhaseLaw 500 4000 5) (2 * Real.pi * (500 + ((4000 - 500) / 5) * 1)) 1 ∧
    (∫ s in (0:ℝ)..1, 2 * Real.pi * (500 + ((4000 - 500) / 5) * s)) = chirpPhaseLaw 500 4000 5 1 ∧
    (500 : ℝ) ≤ 500 + ((4000 - 500) / 5) * 1 ∧ (500 : ℝ) + ((4000 - 500) / 5) * 1 ≤ 4000 ∧
    Continuous (chirpPhaseLaw 500 4000 5) :=
  c9_chirp_phase 500 4000 5 1 (by norm_num) (by norm_num) (by norm_num) (by norm_num)

/-- C6: if any transducer `begin` fails, `runRIRCapture` returns early:
nothing is saved (SampleStore unchanged — all-or-nothing), no transducer is
left initialized (on the RX-failure path the already-started TX is ended
first), and the session is aborted. -/
theorem c6_atomic_abort (env : RIREnv) (b0 : ℕ → ℤ) (out : RunOutcome)
    (h : runRIRCapture env b0 = some out)
    (hfail : env.txInit1 = false ∨ env.txInit2 = false ∨ env.rxInit = false) :
    out.saved = [] ∧ out.txOpen = false ∧ out.rxOpen = false ∧ out.aborted = true := by
  unfold runRIRCapture at h
  split at h
  · injection h with h'
    subst h'
    exact ⟨rfl, rfl, rfl, rfl⟩
  · rename_i h1
    split at h
    · exact absurd h (by simp)
    · split at h
      · injection h with h'
        subst h'
        exact ⟨rfl, rfl, rfl, rfl⟩
      · rename_i h2
        split at h
        · injection h with h'
          subst h'
          exact ⟨rfl, rfl, rfl, rfl⟩
        · rename_i h3
          rcases hfail with hf | hf | hf
          · exact absurd hf h1
          · exact absurd hf h2
          · exact absurd hf h3

/-- Witness for C6: in the environment `envW`, whose stage-2 TX `begin`
fails, the run's outcome (computed by `rfl`) has nothing saved, both
transducers released, and the session aborted. -/
theorem c6_witness :
    (⟨[], false, false, some (calibScale bZero), 0, true⟩ : RunOutcome).saved = [] ∧
    (⟨[], false, false, some (calibScale bZero), 0, true⟩ : RunOutcome).txOpen = false ∧
    (⟨[], false, false, some (calibScale bZero), 0, true⟩ : RunOutcome).rxOpen = false ∧
    (⟨[], false, false, some (calibScale bZero), 0, true⟩ : RunOutcome).aborted = true :=
  c6_atomic_abort envW bZero _ rfl (Or.inr (Or.inl rfl))

/-- C5: the environment scale of a session is computed from the generated
test-chirp samples in the playback buffer (stage 1 plays the burst but never
records), so whenever the calibration line is reached the scale equals the
constant `min (31129 / peak-of-generated-test-chirp) 1` — the same value for
every device environment, every microphone stream and every initial buffer:
it is independent of the acoustic environment and of all captured audio. -/
theorem c5_scale_constant (env : RIREnv) (b0 : ℕ → ℤ) (out : RunOutcome)
    (h : runRIRCapture env b0 = some out) (ht : env.txInit1 = true) :
    out.scale = some (min ((31129 : ℝ) / (testPeak : ℝ)) 1) := by
  unfold runRIRCapture at h
  rw [ht] at h
  rw [if_neg (by simp)] at h
  split at h
  · exact absurd h (by simp)
  · split at h
    · injection h with h'
      subst h'
      show some (calibScale b0) = _
      rw [calibScale_eq, envScaleConst_eq]
    · split at h
      · injection h with h'
        subst h'
        show some (calibScale b0) = _
        rw [calibScale_eq, envScaleConst_eq]
      · split at h
        · exact absurd h (by simp)
        · injection h with h'
          subst h'
          show some (calibScale b0) = _
          rw [calibScale_eq, envScaleConst_eq]

/-- Witness for C5: in the concrete `envW` run (outcome computed by `rfl`)
the scale field equals the constant. -/
theorem c5_witness :
    (⟨[], false, false, some (calibScale bZero), 0, true⟩ : RunOutcome).scale =
      some (min ((31129 : ℝ) / (testPeak : ℝ)) 1) :=
  c5_scale_constant envW bZero _ rfl rfl

lemma runCE_eq : runRIRCapture envCE bZero =
    some ⟨[saveWAVBytes (sampleBytes (stage2Buf (calibScale bZero))) RIR_BUFFER_SIZE_BYTES],
      false, false, some (calibScale bZero), 0, false⟩ := by
  have hdup : duplexLoop RIR_BUFFER_SIZE_BYTES envCE.mic envCE.duplexTrace
      ⟨0, 0, sampleBytes (stage2Buf (calibScale bZero))⟩ =
      some ⟨RIR_BUFFER_SIZE_BYTES, 0, sampleBytes (stage2Buf (calibScale bZero))⟩ := by
    have h := duplexLoop_zero_reads RIR_BUFFER_SIZE_BYTES envCE.mic 157
      ⟨0, 0, sampleBytes (stage2Buf (calibScale bZero))⟩
      (by norm_num [RIR_BUFFER_SIZE_BYTES, SAMPLE_RATE, BYTES_PER_SAMPLE, RIR_RECORD_SECONDS])
      (by norm_num [RIR_BUFFER_SIZE_BYTES, SAMPLE_RATE, BYTES_PER_SAMPLE, RIR_RECORD_SECONDS])
    exact h
  unfold runRIRCapture
  rw [hdup]
  rfl

/-- C1 amended: whenever a `runRIRCapture` session completes, exactly one WAV
of exactly `RIR_RECORD_SECONDS × SAMPLE_RATE` samples (`2·d·r` data bytes
plus the 44-byte header) is saved — regardless of how many bytes the capture
device actually delivered, because the loop guard tests only `bytes_played`
and `saveWAV` is called with the constant buffer size; and each passive clip
loop, started on the `memset`-zeroed buffer, blocks until the device has
supplied every one of its `PASSIVE_CLIP_SECONDS × SAMPLE_RATE` samples, then
saves exactly that many.  (Unrecorded positions of the RIR file hold the
scaled stimulus, not silence — see the counterexample.) -/
theorem c1_saved_length :
    (∀ (env : RIREnv) (b0 : ℕ → ℤ) (out : RunOutcome),
        runRIRCapture env b0 = some out → out.aborted = false →
        out.saved.map List.length =
          [44 + BYTES_PER_SAMPLE * (RIR_RECORD_SECONDS * SAMPLE_RATE)]) ∧
    (∀ (mic : ℕ → ℤ) (tr : List ℕ) (recd : ℕ) (buf : ℕ → ℤ),
        passiveLoop PASSIVE_BUFFER_SIZE_BYTES mic tr 0 bZero = some (recd, buf) →
        recd = PASSIVE_BUFFER_SIZE_BYTES ∧
        (saveWAVBytes buf PASSIVE_BUFFER_SIZE_BYTES).length =
          44 + BYTES_PER_SAMPLE * (PASSIVE_CLIP_SECONDS * SAMPLE_RATE)) := by
  constructor
  · intro env b0 out h habort
    unfold runRIRCapture at h
    split at h
    · injection h with h'
      subst h'
      exact absurd habort (by simp)
    · split at h
      · exact absurd h (by simp)
      · split at h
        · injection h with h'
          subst h'
          exact absurd habort (by simp)
        · split at h
          · injection h with h'
            subst h'
            exact absurd habort (by simp)
          · split at h
            · exact absurd h (by simp)
            · injection h with h'
              subst h'
              show [(saveWAVBytes _ RIR_BUFFER_SIZE_BYTES).length] = _
              rw [saveWAVBytes_length]
              norm_num [RIR_BUFFER_SIZE_BYTES, SAMPLE_RATE, BYTES_PER_SAMPLE,
                RIR_RECORD_SECONDS]
  · intro mic tr recd buf h
    refine ⟨passiveLoop_complete _ _ tr 0 bZero recd buf (by norm_num) h, ?_⟩
    rw [saveWAVBytes_length]
    norm_num [PASSIVE_BUFFER_SIZE_BYTES, SAMPLE_RATE, BYTES_PER_SAMPLE,
      PASSIVE_CLIP_SECONDS]

/-- Witness for the amended C1: the completing `envCE` run saves one
160044-byte WAV, and a passive clip loop granted the whole buffer in one read
finishes with exactly `PASSIVE_BUFFER_SIZE_BYTES` recorded. -/
theorem c1_witness :
    ((⟨[saveWAVBytes (sampleBytes (stage2Buf (calibScale bZero))) RIR_BUFFER_SIZE_BYTES],
        false, false, some (calibScale bZero), 0, false⟩ : RunOutcome).saved.map List.length =
      [44 + BYTES_PER_SAMPLE * (RIR_RECORD_SECONDS * SAMPLE_RATE)]) ∧
    (PASSIVE_BUFFER_SIZE_BYTES = PASSIVE_BUFFER_SIZE_BYTES ∧
      (saveWAVBytes (fun j =>
          if 0 ≤ j ∧ j < 0 + min PASSIVE_BUFFER_SIZE_BYTES (PASSIVE_BUFFER_SIZE_BYTES - 0)
          then bZero j else bZero j) PASSIVE_BUFFER_SIZE_BYTES).length =
        44 + BYTES_PER_SAMPLE * (PASSIVE_CLIP_SECONDS * SAMPLE_RATE)) :=
  ⟨c1_saved_length.1 envCE bZero _ runCE_eq rfl,
    c1_saved_length.2 bZero [PASSIVE_BUFFER_SIZE_BYTES] PASSIVE_BUFFER_SIZE_BYTES _ rfl⟩

/-- C1 counterexample: in the `envCE` run the playback completes while the
capture device delivers 0 bytes on every read (`recordedBytes = 0`, i.e. the
device supplied no data for any position), yet byte 1601 of the saved data
chunk — the high byte of sample 800 — is the scaled chirp's byte, not 0: the
file is NOT filled with silence at positions the device never supplied. -/
theorem c1_counterexample :
    ¬ (∀ out : RunOutcome, runRIRCapture envCE bZero = some out →
        out.recordedBytes = 0 →
        ∀ f ∈ out.saved, f.getD (44 + 1601) 0 = 0) := by
  intro hcl
  have hb := hcl _ runCE_eq rfl
    (saveWAVBytes (sampleBytes (stage2Buf (calibScale bZero))) RIR_BUFFER_SIZE_BYTES)
    (List.mem_singleton.mpr rfl)
  rw [saveWAVBytes_data_getD _ _ 1601
    (by norm_num [RIR_BUFFER_SIZE_BYTES, SAMPLE_RATE, BYTES_PER_SAMPLE,
      RIR_RECORD_SECONDS])] at hb
  rw [calibScale_eq] at hb
  unfold sampleBytes at hb
  norm_num at hb
  unfold le16byte at hb
  rw [if_neg (by norm_num)] at hb
  obtain ⟨hl, hr⟩ := stage2Buf_800_bounds
  omega

end RIRCapture
